import Mathlib

/-!
Verification model of the repository-context generator (a single-file Deno
CLI).  The program is a linear pipeline: check that the working directory is
a git repository, write a header, list the tracked files, classify and read
each one in order while appending formatted sections to the output file, and
finally append a summary.  External effects (the git and file subprocesses,
lstat, file reads) are embedded as explicit environment data so that the
orchestration logic of the source becomes a pure Lean function.
-/

deriving instance DecidableEq for Except

/-- Result of invoking an external command: the exit status flag and the
decoded standard output, mirroring the fields of Deno command output that
the source reads. -/
structure CmdOutput where
  success : Bool
  stdout : String
deriving DecidableEq, Repr

/-- The error classification the source's catch blocks distinguish: the
runtime's NotFound error versus any other thrown error with its message. -/
inductive IOErr where
  | notFound
  | other (msg : String)
deriving DecidableEq, Repr

/-- The only field of the lstat result the source consults. -/
structure Stat where
  isSymlink : Bool
deriving DecidableEq, Repr

/-- The run statistics object: counters for processed and skipped files. -/
structure Stats where
  processed : Nat
  skipped : Nat
deriving DecidableEq, Repr

/-- Boolean substring containment, the embedding of JavaScript
String.prototype.includes. -/
def strContains (s pat : String) : Bool := decide (pat.data <:+: s.data)

/-- Character-wise lowercasing, the embedding of
String.prototype.toLowerCase. -/
def strToLower (s : String) : String := String.mk (s.data.map Char.toLower)

/-- Embedding of isBinaryFile: the invocation of the external file command
either throws (error case, caught inside the method, which then returns
true, assuming binary for safety) or yields command output whose stdout is
lowercased and searched for the substrings "text" and "empty".  The exit
status of the command is not consulted. -/
def isBinaryFile (fileCmd : Except String CmdOutput) : Bool :=
  match fileCmd with
  | .error _ => true
  | .ok out =>
      !(strContains (strToLower out.stdout) "text") &&
      !(strContains (strToLower out.stdout) "empty")

/-- The template string built by formatFileContent once the file content has
been read. -/
def fileSectionText (relativePath content : String) : String :=
  "\n=== File: " ++ relativePath ++ " ===\n\n" ++ content ++
    "\n\n=== End: " ++ relativePath ++ " ===\n"

/-- Embedding of formatFileContent: it reads the file at fullPath from the
filesystem (readTextFile may throw) and wraps the decoded content in the
section template.  The filesystem is an explicit argument because the
source method performs this read itself. -/
def formatFileContent (readTextFile : String → Except IOErr String)
    (relativePath fullPath : String) : Except IOErr String :=
  (readTextFile fullPath).map (fileSectionText relativePath)

/-- The header block written by generate: four labelled lines joined by
newlines, terminated by the separator entry. -/
def headerText (timestamp root branch version : String) : String :=
  String.intercalate "\n"
    ["Repository Context Generated on " ++ timestamp,
     "Repository Root: " ++ root,
     "Current Branch: " ++ branch,
     "Generator Version: " ++ version,
     "\n---\n"]

/-- The summary block appended by generate after the loop. -/
def summaryText (stats : Stats) (timestamp version : String) : String :=
  String.intercalate "\n"
    ["\n=== Summary ===\n",
     "Files processed: " ++ toString stats.processed,
     "Files skipped: " ++ toString stats.skipped ++ " (binary, symlinks, or missing)",
     "Generated on: " ++ timestamp,
     "Generator Version: " ++ version]

/-- The external world as seen by one iteration of the per-file loop: the
outcome of lstat on the joined path, of the file-command invocation, and of
reading the file as text. -/
structure FileEnv where
  lstat : Except IOErr Stat
  fileCmd : Except String CmdOutput
  readFile : Except IOErr String
deriving DecidableEq, Repr

/-- The outcome of one loop iteration.  A processed outcome carries the
section text appended to the output file; the errored outcome carries the
logged message of the error that fell through to the catch block. -/
inductive Outcome where
  | processed (sectionText : String)
  | skippedSymlink
  | skippedBinary
  | skippedMissing
  | errored (msg : String)
deriving DecidableEq, Repr

/-- One iteration of the loop body of generate.  lstat throwing NotFound, or
any later NotFound escaping to the catch block (in particular from the read
inside formatFileContent), lands in the skipped-missing branch; any other
thrown error lands in the errored branch.  A symlink stat short-circuits
before classification; a binary classification short-circuits before the
read. -/
def processFile (relativePath : String) (env : FileEnv) : Outcome :=
  match env.lstat with
  | .error .notFound => .skippedMissing
  | .error (.other msg) => .errored msg
  | .ok st =>
      if st.isSymlink then .skippedSymlink
      else if isBinaryFile env.fileCmd then .skippedBinary
      else
        match env.readFile with
        | .error .notFound => .skippedMissing
        | .error (.other msg) => .errored msg
        | .ok content => .processed (fileSectionText relativePath content)

/-- How one outcome updates the counters: processed and the three skip
variants each bump exactly one counter; an errored outcome bumps neither. -/
def stepStats (s : Stats) : Outcome → Stats
  | .processed _ => ⟨s.processed + 1, s.skipped⟩
  | .skippedSymlink => ⟨s.processed, s.skipped + 1⟩
  | .skippedBinary => ⟨s.processed, s.skipped + 1⟩
  | .skippedMissing => ⟨s.processed, s.skipped + 1⟩
  | .errored _ => s

/-- What one outcome appends to the output file: the section text for a
processed file, nothing otherwise. -/
def outputOf : Outcome → String
  | .processed sec => sec
  | _ => ""

/-- One step of the loop acting on the accumulated statistics and the
output-file contents. -/
def loopStep (acc : Stats × String) (it : String × FileEnv) : Stats × String :=
  let o := processFile it.1 it.2
  (stepStats acc.1 o, acc.2 ++ outputOf o)

/-- The statistics after folding the loop over a list of tracked files,
starting from the given counters. -/
def statsAfter (s : Stats) (files : List (String × FileEnv)) : Stats :=
  files.foldl (fun a it => stepStats a (processFile it.1 it.2)) s

/-- The concatenation of the file sections the loop appends, in listing
order; skipped and errored iterations contribute the empty string. -/
def sectionsOf : List (String × FileEnv) → String
  | [] => ""
  | it :: rest => outputOf (processFile it.1 it.2) ++ sectionsOf rest

/-- The whole per-file loop of generate, from zeroed counters and the
output file as written so far. -/
def runLoop (files : List (String × FileEnv)) : Stats × String :=
  files.foldl loopStep (⟨0, 0⟩, "")

/-- How a run of generate terminates: the explicit exit(1) when the
directory is not a repository, an uncaught fatal error, or completion with
final statistics. -/
inductive RunEnd where
  | exitNotRepo
  | fatalError (msg : String)
  | completed (stats : Stats)
deriving DecidableEq, Repr

/-- Process exit code for each terminal state: exit(1) for the repository
check, a non-zero exit for an uncaught error, zero on completion. -/
def exitCodeOf : RunEnd → Nat
  | .exitNotRepo => 1
  | .fatalError _ => 1
  | .completed _ => 0

/-- The external world as seen by one whole run of generate: the repository
check, the repository-info query (root and branch, or a thrown error), the
tracked-file listing paired with each listed path's per-file environment,
and the two timestamps taken when the header and the summary are built. -/
structure GenEnv where
  isRepo : Bool
  repoInfo : Except String (String × String)
  headerTimestamp : String
  trackedFiles : Except String (List (String × FileEnv))
  summaryTimestamp : String

/-- The observable result of a run: the final contents of the output file
(equal to the initial contents when the file was never written) and the
terminal state. -/
structure RunResult where
  outputFile : String
  finish : RunEnd
deriving DecidableEq, Repr

/-- Embedding of generate: a failed repository check exits before any
write; a repository-info failure is thrown before the header write; the
header write truncates the output file; a tracked-file-listing failure is
thrown after the header write; otherwise the loop runs and the summary is
appended. -/
def generate (env : GenEnv) (version init : String) : RunResult :=
  if env.isRepo = false then ⟨init, .exitNotRepo⟩
  else
    match env.repoInfo with
    | .error msg => ⟨init, .fatalError msg⟩
    | .ok rb =>
        let hdr := headerText env.headerTimestamp rb.1 rb.2 version
        match env.trackedFiles with
        | .error msg => ⟨hdr, .fatalError msg⟩
        | .ok files =>
            let r := runLoop files
            ⟨hdr ++ r.2 ++ summaryText r.1 env.summaryTimestamp version,
             .completed r.1⟩

/-- Modelled from the spec: the classification rule stated in words, that a
file is text exactly when the classifier output contains, case
insensitively, the substring "text" or the substring "empty". -/
def specIsText (output : String) : Bool :=
  strContains (strToLower output) "text" || strContains (strToLower output) "empty"

/-- Whether an outcome is the processed variant. -/
def isProcessedO : Outcome → Bool
  | .processed _ => true
  | _ => false

/-- Whether an outcome is one of the three skip variants. -/
def isSkippedO : Outcome → Bool
  | .skippedSymlink => true
  | .skippedBinary => true
  | .skippedMissing => true
  | _ => false

/-- Whether an outcome is the errored variant. -/
def isErroredO : Outcome → Bool
  | .errored _ => true
  | _ => false

/-- A per-file environment in which the file stats as a regular file, is
classified as text, and is read successfully: the description of the files
the spec says the processed counter counts. -/
def textAndReadOk (env : FileEnv) : Bool :=
  match env.lstat, env.readFile with
  | .ok st, .ok _ => !st.isSymlink && !isBinaryFile env.fileCmd
  | _, _ => false

/-- A concrete filesystem holding the content "hello" at every path. -/
def fsHello : String → Except IOErr String := fun _ => Except.ok "hello"

/-- A concrete filesystem holding the content "world" at every path. -/
def fsWorld : String → Except IOErr String := fun _ => Except.ok "world"

/-- Per-file environment of a plain text file with content "hello". -/
def envTextHello : FileEnv :=
  ⟨Except.ok ⟨false⟩, Except.ok ⟨true, "ASCII text"⟩, Except.ok "hello"⟩

/-- Per-file environment of a file the classifier reports as image data. -/
def envBinary : FileEnv :=
  ⟨Except.ok ⟨false⟩, Except.ok ⟨true, "PNG image data"⟩, Except.ok "\x00"⟩

/-- Per-file environment of a symbolic link. -/
def envSymlink : FileEnv :=
  ⟨Except.ok ⟨true⟩, Except.ok ⟨true, "ASCII text"⟩, Except.ok "hello"⟩

/-- Per-file environment of a text file that vanishes between the
classification and the read: the read throws NotFound. -/
def envVanishing : FileEnv :=
  ⟨Except.ok ⟨false⟩, Except.ok ⟨true, "ASCII text"⟩, Except.error IOErr.notFound⟩

/-- Per-file environment of a text file whose read throws a permission
error. -/
def envReadError : FileEnv :=
  ⟨Except.ok ⟨false⟩, Except.ok ⟨true, "ASCII text"⟩,
   Except.error (IOErr.other "Permission denied")⟩

/-- Per-file environment of a file for which the classifier invocation
itself throws. -/
def envClassifierDown : FileEnv :=
  ⟨Except.ok ⟨false⟩, Except.error "No such file or directory: file",
   Except.ok "hello"⟩

/-- The tracked-file listing of the worked scenario in the spec: a text
file, a binary image, and a symbolic link, in that order. -/
def demoFiles : List (String × FileEnv) :=
  [("a.txt", envTextHello), ("img.png", envBinary), ("link.txt", envSymlink)]

/-- A run environment over the demo listing, inside a repository. -/
def demoGenEnv : GenEnv :=
  ⟨true, Except.ok ("/repo", "main"), "2026-10-11T00:00:00.000Z",
   Except.ok demoFiles, "2026-10-11T00:00:01.000Z"⟩

/-- A run environment over an empty tracked-file listing. -/
def emptyGenEnv : GenEnv :=
  ⟨true, Except.ok ("/repo", "main"), "2026-10-11T00:00:00.000Z",
   Except.ok [], "2026-10-11T00:00:01.000Z"⟩

/-- A run environment whose repository check fails. -/
def notRepoGenEnv : GenEnv :=
  ⟨false, Except.ok ("/repo", "main"), "2026-10-11T00:00:00.000Z",
   Except.ok demoFiles, "2026-10-11T00:00:01.000Z"⟩

/-- Concatenation of a list of strings, used to state the ordering of the
file sections. -/
def joinAll : List String → String
  | [] => ""
  | a :: l => a ++ joinAll l

/-- A second concrete filesystem that holds "hello" at one path and nothing
elsewhere. -/
def fsHelloElsewhere : String → Except IOErr String :=
  fun p => if p = "/repo/a.txt" then Except.ok "hello" else Except.error IOErr.notFound

theorem outputOf_of_not_processed (o : Outcome) (h : isProcessedO o = false) :
    outputOf o = "" := by
  cases o <;> simp [isProcessedO] at h ⊢ <;> rfl

theorem stepStats_processed (s : Stats) (o : Outcome) :
    (stepStats s o).processed = s.processed + (if isProcessedO o then 1 else 0) := by
  cases o <;> simp [stepStats, isProcessedO]

theorem stepStats_skipped (s : Stats) (o : Outcome) :
    (stepStats s o).skipped = s.skipped + (if isSkippedO o then 1 else 0) := by
  cases o <;> simp [stepStats, isSkippedO]

theorem foldl_loopStep_eq (files : List (String × FileEnv)) :
    ∀ (s : Stats) (f : String),
      List.foldl loopStep (s, f) files = (statsAfter s files, f ++ sectionsOf files) := by
  induction files with
  | nil => intro s f; simp [statsAfter, sectionsOf]
  | cons it rest ih =>
      intro s f
      simp only [List.foldl_cons, loopStep, statsAfter, sectionsOf]
      rw [ih]
      simp [statsAfter, String.append_assoc]

theorem processFile_processed_iff (rp : String) (env : FileEnv) :
    isProcessedO (processFile rp env) = textAndReadOk env := by
  obtain ⟨ls, fc, rf⟩ := env
  cases ls with
  | error e => cases e <;> rfl
  | ok st =>
      obtain ⟨b⟩ := st
      cases rf with
      | error e =>
          cases e <;> cases b <;> cases hb : isBinaryFile fc <;>
            simp [processFile, textAndReadOk, hb, isProcessedO]
      | ok c =>
          cases b <;> cases hb : isBinaryFile fc <;>
            simp [processFile, textAndReadOk, hb, isProcessedO]

theorem statsAfter_processed_count (files : List (String × FileEnv)) :
    ∀ s : Stats, (statsAfter s files).processed =
      s.processed + files.countP (fun it => textAndReadOk it.2) := by
  induction files with
  | nil => intro s; simp [statsAfter]
  | cons it rest ih =>
      intro s
      simp only [statsAfter, List.foldl_cons] at ih ⊢
      rw [ih, List.countP_cons, stepStats_processed, processFile_processed_iff]
      omega

theorem statsAfter_sum_le (files : List (String × FileEnv)) :
    ∀ s : Stats, (statsAfter s files).processed + (statsAfter s files).skipped ≤
      s.processed + s.skipped + files.length := by
  induction files with
  | nil => intro s; simp [statsAfter]
  | cons it rest ih =>
      intro s
      simp only [statsAfter, List.foldl_cons, List.length_cons] at ih ⊢
      have h := ih (stepStats s (processFile it.1 it.2))
      have hp := stepStats_processed s (processFile it.1 it.2)
      have hs := stepStats_skipped s (processFile it.1 it.2)
      cases ho : processFile it.1 it.2 <;> rw [ho] at h hp hs <;>
        simp [isProcessedO, isSkippedO] at hp hs <;> omega

theorem statsAfter_sum_eq (files : List (String × FileEnv)) :
    ∀ s : Stats, (∀ it ∈ files, isErroredO (processFile it.1 it.2) = false) →
      (statsAfter s files).processed + (statsAfter s files).skipped =
        s.processed + s.skipped + files.length := by
  induction files with
  | nil => intro s _; simp [statsAfter]
  | cons it rest ih =>
      intro s h
      have hhd : isErroredO (processFile it.1 it.2) = false := h it (by simp)
      have htl : ∀ x ∈ rest, isErroredO (processFile x.1 x.2) = false :=
        fun x hx => h x (by simp [hx])
      simp only [statsAfter, List.foldl_cons, List.length_cons] at ih ⊢
      rw [ih (stepStats s (processFile it.1 it.2)) htl]
      have hp := stepStats_processed s (processFile it.1 it.2)
      have hs := stepStats_skipped s (processFile it.1 it.2)
      cases ho : processFile it.1 it.2 <;> rw [ho] at hp hs hhd <;>
        simp [isProcessedO, isSkippedO, isErroredO] at hp hs hhd <;> omega

theorem sectionsOf_eq_processed_sections (files : List (String × FileEnv)) :
    sectionsOf files =
      joinAll ((files.filter fun it => isProcessedO (processFile it.1 it.2)).map
        fun it => outputOf (processFile it.1 it.2)) := by
  induction files with
  | nil => rfl
  | cons it rest ih =>
      by_cases h : isProcessedO (processFile it.1 it.2) = true
      · simp [sectionsOf, List.filter_cons, h, joinAll, ih]
      · have h0 : isProcessedO (processFile it.1 it.2) = false := by
          cases hx : isProcessedO (processFile it.1 it.2)
          · rfl
          · exact absurd hx h
        simp [sectionsOf, List.filter_cons, h0, joinAll, ih,
          outputOf_of_not_processed _ h0]

/-- C1, counterexample: a text-classified file that vanishes between the
classification and the read makes the read throw NotFound, which the catch
block at the loop boundary counts in the skipped bucket, contradicting the
claim that such a failure increments neither counter. -/
theorem c1_counterexample :
    processFile "a.txt" envVanishing = Outcome.skippedMissing ∧
    (stepStats ⟨0, 0⟩ (processFile "a.txt" envVanishing)).skipped = 1 ∧
    (stepStats ⟨0, 0⟩ (processFile "a.txt" envVanishing)).processed = 0 := by
  refine ⟨?_, ?_, ?_⟩ <;> decide

/-- C1, amended: a non-NotFound failure while reading a text-classified
file is caught at the loop boundary, yields the errored outcome, increments
neither counter and appends nothing, while a NotFound failure during the
read is instead counted in the skipped bucket as a missing file. -/
theorem c1_read_failure_buckets (rp msg : String) (env envN : FileEnv)
    (st stN : Stat) (s : Stats)
    (hl : env.lstat = Except.ok st) (hs : st.isSymlink = false)
    (hb : isBinaryFile env.fileCmd = false)
    (hr : env.readFile = Except.error (IOErr.other msg))
    (hlN : envN.lstat = Except.ok stN) (hsN : stN.isSymlink = false)
    (hbN : isBinaryFile envN.fileCmd = false)
    (hrN : envN.readFile = Except.error IOErr.notFound) :
    processFile rp env = Outcome.errored msg ∧
    stepStats s (processFile rp env) = s ∧
    outputOf (processFile rp env) = "" ∧
    processFile rp envN = Outcome.skippedMissing ∧
    (stepStats s (processFile rp envN)).skipped = s.skipped + 1 ∧
    (stepStats s (processFile rp envN)).processed = s.processed := by
  have h1 : processFile rp env = Outcome.errored msg := by
    simp [processFile, hl, hs, hb, hr]
  have h2 : processFile rp envN = Outcome.skippedMissing := by
    simp [processFile, hlN, hsN, hbN, hrN]
  rw [h1, h2]
  exact ⟨rfl, rfl, rfl, rfl, rfl, rfl⟩

/-- C1, witness for the amended theorem at the concrete permission-error
and vanishing-file environments. -/
theorem c1_read_failure_buckets_witness :
    (envReadError.lstat = Except.ok ⟨false⟩ ∧
     isBinaryFile envReadError.fileCmd = false ∧
     envReadError.readFile = Except.error (IOErr.other "Permission denied") ∧
     envVanishing.readFile = Except.error IOErr.notFound) ∧
    processFile "a.txt" envReadError = Outcome.errored "Permission denied" ∧
    stepStats ⟨3, 4⟩ (processFile "a.txt" envReadError) = ⟨3, 4⟩ ∧
    processFile "a.txt" envVanishing = Outcome.skippedMissing := by
  have h := c1_read_failure_buckets "a.txt" "Permission denied" envReadError
    envVanishing ⟨false⟩ ⟨false⟩ ⟨3, 4⟩ rfl rfl (by decide) rfl rfl rfl
    (by decide) rfl
  exact ⟨⟨rfl, by decide, rfl, rfl⟩, h.1, h.2.1, h.2.2.2.1⟩

/-- C2, counterexample: the file-section formatter reads the file itself,
so two runs with identical explicit arguments but different file content on
disk produce different output, refuting the claim that it is a pure
function of its explicit inputs performing no input or output. -/
theorem c2_counterexample :
    formatFileContent fsHello "a.txt" "/repo/a.txt" ≠
      formatFileContent fsWorld "a.txt" "/repo/a.txt" := by
  decide

/-- C2, amended: the header and summary renderings are pure functions of
their arguments, and the file-section formatter is a pure function of the
relative path and the content the filesystem holds at the full path: two
calls that read the same content produce byte-identical output, namely the
section template applied to that content. -/
theorem c2_format_deterministic (fs1 fs2 : String → Except IOErr String)
    (rp fp content : String)
    (h1 : fs1 fp = Except.ok content) (h2 : fs2 fp = Except.ok content) :
    formatFileContent fs1 rp fp = Except.ok (fileSectionText rp content) ∧
    formatFileContent fs1 rp fp = formatFileContent fs2 rp fp := by
  simp [formatFileContent, h1, h2, Except.map]

/-- C2, witness: two distinct filesystems holding "hello" at the same path
format identically. -/
theorem c2_format_deterministic_witness :
    (fsHello "/repo/a.txt" = Except.ok "hello" ∧
     fsHelloElsewhere "/repo/a.txt" = Except.ok "hello") ∧
    formatFileContent fsHello "a.txt" "/repo/a.txt" =
      Except.ok (fileSectionText "a.txt" "hello") ∧
    formatFileContent fsHello "a.txt" "/repo/a.txt" =
      formatFileContent fsHelloElsewhere "a.txt" "/repo/a.txt" := by
  have h := c2_format_deterministic fsHello fsHelloElsewhere "a.txt"
    "/repo/a.txt" "hello" rfl (by decide)
  exact ⟨⟨rfl, by decide⟩, h.1, h.2⟩

/-- C3: when the external classifier invocation itself throws, the file is
classified as binary, the outcome is the skipped-binary bucket, the skipped
counter is incremented, the processed counter is untouched, and nothing is
appended; the loop function is total, so the run is not aborted. -/
theorem c3_classifier_failure_skips (rp msg : String) (env : FileEnv)
    (st : Stat) (s : Stats)
    (hl : env.lstat = Except.ok st) (hs : st.isSymlink = false)
    (hc : env.fileCmd = Except.error msg) :
    processFile rp env = Outcome.skippedBinary ∧
    (stepStats s (processFile rp env)).skipped = s.skipped + 1 ∧
    (stepStats s (processFile rp env)).processed = s.processed ∧
    outputOf (processFile rp env) = "" := by
  have hb : isBinaryFile env.fileCmd = true := by rw [hc]; rfl
  have h1 : processFile rp env = Outcome.skippedBinary := by
    simp [processFile, hl, hs, hb]
  rw [h1]
  exact ⟨rfl, rfl, rfl, rfl⟩

/-- C3, witness at the concrete environment where the file command is
unavailable. -/
theorem c3_classifier_failure_skips_witness :
    (envClassifierDown.lstat = Except.ok ⟨false⟩ ∧
     envClassifierDown.fileCmd =
       Except.error "No such file or directory: file") ∧
    processFile "a.txt" envClassifierDown = Outcome.skippedBinary ∧
    (stepStats ⟨1, 1⟩ (processFile "a.txt" envClassifierDown)).skipped = 2 := by
  have h := c3_classifier_failure_skips "a.txt"
    "No such file or directory: file" envClassifierDown ⟨false⟩ ⟨1, 1⟩
    rfl rfl rfl
  exact ⟨⟨rfl, rfl⟩, h.1, h.2.1⟩

/-- C4: on a completed run the output file is exactly the header block,
then the per-file sections in the order of the tracked-file listing, then
the summary block; the sections are exactly one per processed file, in
listing order, skipped and errored files contributing no section, and the
shape holds even for an empty listing. -/
theorem c4_block_order (env : GenEnv) (version init root branch : String)
    (files : List (String × FileEnv))
    (hrepo : env.isRepo = true)
    (hinfo : env.repoInfo = Except.ok (root, branch))
    (hfiles : env.trackedFiles = Except.ok files) :
    (generate env version init).outputFile =
      headerText env.headerTimestamp root branch version ++ sectionsOf files ++
        summaryText (statsAfter ⟨0, 0⟩ files) env.summaryTimestamp version ∧
    sectionsOf files =
      joinAll ((files.filter fun it => isProcessedO (processFile it.1 it.2)).map
        fun it => outputOf (processFile it.1 it.2)) := by
  constructor
  · simp [generate, hrepo, hinfo, hfiles, runLoop, foldl_loopStep_eq,
      String.append_assoc]
  · exact sectionsOf_eq_processed_sections files

/-- C4, witness: the empty-listing run, where the output is the header
followed immediately by the summary with zero counts. -/
theorem c4_block_order_witness :
    (emptyGenEnv.isRepo = true ∧
     emptyGenEnv.repoInfo = Except.ok ("/repo", "main") ∧
     emptyGenEnv.trackedFiles = Except.ok ([] : List (String × FileEnv))) ∧
    (generate emptyGenEnv "1.0.0" "old").outputFile =
      headerText emptyGenEnv.headerTimestamp "/repo" "main" "1.0.0" ++
        sectionsOf [] ++
        summaryText (statsAfter ⟨0, 0⟩ []) emptyGenEnv.summaryTimestamp
          "1.0.0" := by
  have h := c4_block_order emptyGenEnv "1.0.0" "old" "/repo" "main" []
    rfl rfl rfl
  exact ⟨⟨rfl, rfl, rfl⟩, h.1⟩

/-- C5: after the loop, processed plus skipped never exceeds the number of
tracked files, with equality when no per-file error occurred, and the
processed counter equals the number of tracked files that stat as regular
files, classify as text, and read successfully. -/
theorem c5_count_invariant (files : List (String × FileEnv)) :
    (runLoop files).1.processed + (runLoop files).1.skipped ≤ files.length ∧
    ((∀ it ∈ files, isErroredO (processFile it.1 it.2) = false) →
      (runLoop files).1.processed + (runLoop files).1.skipped = files.length) ∧
    (runLoop files).1.processed =
      files.countP (fun it => textAndReadOk it.2) := by
  have hr : (runLoop files).1 = statsAfter ⟨0, 0⟩ files := by
    rw [runLoop, foldl_loopStep_eq]
  rw [hr]
  refine ⟨?_, ?_, ?_⟩
  · have h := statsAfter_sum_le files ⟨0, 0⟩
    simpa using h
  · intro h
    have h2 := statsAfter_sum_eq files ⟨0, 0⟩ h
    simpa using h2
  · have h := statsAfter_processed_count files ⟨0, 0⟩
    simpa using h

/-- C5, witness: the spec's worked scenario of a text file, a binary image
and a symlink, where no per-file error occurs, one file is processed, two
are skipped, and the two counters sum to the listing length. -/
theorem c5_count_invariant_witness :
    (∀ it ∈ demoFiles, isErroredO (processFile it.1 it.2) = false) ∧
    (runLoop demoFiles).1.processed + (runLoop demoFiles).1.skipped =
      demoFiles.length ∧
    (runLoop demoFiles).1.processed =
      demoFiles.countP (fun it => textAndReadOk it.2) := by
  have h := c5_count_invariant demoFiles
  exact ⟨by decide, h.2.1 (by decide), h.2.2⟩

/-- C6: when the repository check fails, the run ends in the explicit
non-zero exit and the output file keeps its prior contents: it is neither
created nor modified. -/
theorem c6_not_repo_no_output (env : GenEnv) (version init : String)
    (h : env.isRepo = false) :
    (generate env version init).outputFile = init ∧
    (generate env version init).finish = RunEnd.exitNotRepo ∧
    exitCodeOf (generate env version init).finish ≠ 0 := by
  simp [generate, h, exitCodeOf]

/-- C6, witness at the concrete non-repository run environment. -/
theorem c6_not_repo_no_output_witness :
    notRepoGenEnv.isRepo = false ∧
    (generate notRepoGenEnv "1.0.0" "previous contents").outputFile =
      "previous contents" ∧
    exitCodeOf (generate notRepoGenEnv "1.0.0" "previous contents").finish ≠
      0 := by
  have h := c6_not_repo_no_output notRepoGenEnv "1.0.0" "previous contents" rfl
  exact ⟨rfl, h.1, h.2.2⟩

/-- C7: for a path that stats successfully as a non-symlink, the
classifier output is inspected case-insensitively and the file is text
exactly when the output contains the substring "text" or the substring
"empty"; otherwise the loop takes the skipped-binary branch. -/
theorem c7_text_iff_substring (out : CmdOutput) (rp : String) (env : FileEnv)
    (st : Stat)
    (hl : env.lstat = Except.ok st) (hs : st.isSymlink = false)
    (hc : env.fileCmd = Except.ok out) :
    isBinaryFile env.fileCmd = !specIsText out.stdout ∧
    (specIsText out.stdout = false → processFile rp env = Outcome.skippedBinary) := by
  have h1 : isBinaryFile env.fileCmd = !specIsText out.stdout := by
    rw [hc]
    simp [isBinaryFile, specIsText]
  refine ⟨h1, fun hfalse => ?_⟩
  have hb : isBinaryFile env.fileCmd = true := by rw [h1, hfalse]; rfl
  simp [processFile, hl, hs, hb]

/-- C7, witness: the concrete image file, whose classifier output contains
neither substring, is skipped as binary. -/
theorem c7_text_iff_substring_witness :
    (envBinary.lstat = Except.ok ⟨false⟩ ∧
     envBinary.fileCmd = Except.ok ⟨true, "PNG image data"⟩ ∧
     specIsText "PNG image data" = false) ∧
    isBinaryFile envBinary.fileCmd = !specIsText "PNG image data" ∧
    processFile "img.png" envBinary = Outcome.skippedBinary := by
  have h := c7_text_iff_substring ⟨true, "PNG image data"⟩ "img.png"
    envBinary ⟨false⟩ rfl rfl rfl
  exact ⟨⟨rfl, rfl, by decide⟩, h.1, h.2 (by decide)⟩

/-- C8: a tracked path whose lstat reports a symbolic link is skipped
whatever the classifier or the read would return, so its content is never
consulted; the skipped counter is incremented and nothing is appended. -/
theorem c8_symlink_skipped (rp : String) (fc : Except String CmdOutput)
    (rf : Except IOErr String) (s : Stats) :
    processFile rp ⟨Except.ok ⟨true⟩, fc, rf⟩ = Outcome.skippedSymlink ∧
    (stepStats s (processFile rp ⟨Except.ok ⟨true⟩, fc, rf⟩)).skipped =
      s.skipped + 1 ∧
    (stepStats s (processFile rp ⟨Except.ok ⟨true⟩, fc, rf⟩)).processed =
      s.processed ∧
    outputOf (processFile rp ⟨Except.ok ⟨true⟩, fc, rf⟩) = "" :=
  ⟨rfl, rfl, rfl, rfl⟩

/-- C9: the binary-or-text decision reads only the classifier's standard
output, never its exit status: flipping the status flag never changes the
decision, and a failing classifier run that still prints "ASCII text"
classifies the file as text, which the loop then processes. -/
theorem c9_exit_status_ignored (b1 b2 : Bool) (txt : String) :
    isBinaryFile (Except.ok ⟨b1, txt⟩) = isBinaryFile (Except.ok ⟨b2, txt⟩) ∧
    isBinaryFile (Except.ok ⟨false, "ASCII text"⟩) = false ∧
    processFile "a.txt"
        ⟨Except.ok ⟨false⟩, Except.ok ⟨false, "ASCII text"⟩, Except.ok "hi"⟩ =
      Outcome.processed (fileSectionText "a.txt" "hi") :=
  ⟨rfl, by decide, by decide⟩

/-- C10: a loop iteration whose outcome is not the processed variant, so
any skip or per-file error, leaves the output-file contents exactly as they
were before the iteration. -/
theorem c10_no_append_on_skip (s : Stats) (f : String)
    (it : String × FileEnv)
    (h : isProcessedO (processFile it.1 it.2) = false) :
    (loopStep (s, f) it).2 = f := by
  simp [loopStep, outputOf_of_not_processed _ h]

/-- C10, witness: the binary-file iteration appends nothing to an output
file holding the header. -/
theorem c10_no_append_on_skip_witness :
    isProcessedO (processFile "img.png" envBinary) = false ∧
    (loopStep (⟨0, 0⟩, "HEADER") ("img.png", envBinary)).2 = "HEADER" := by
  exact ⟨by decide, c10_no_append_on_skip ⟨0, 0⟩ "HEADER" ("img.png", envBinary) (by decide)⟩
